import Mathlib

set_option linter.unusedSectionVars false
set_option linter.unusedVariables false

/-!
Shallow embedding of `src/src/python/gpuarray.py`.

The module has two layers:

* `splay`, the pure work-distribution heuristic mapping a problem size and
  the backend limits `(min_threads, max_threads, max_blocks)` to a launch
  configuration `(block_count, threads_per_block, elems_per_block)`;
* `GPUArray`, a device-resident array with host transfer (`set`/`get`) and
  elementwise kernels (`axpbyz` for `__add__`/`__sub__`, `scale` for
  `_scale`/`__neg__`/`__mul__`, `fill`), each dispatched with
  `splay(self.size, WARP_SIZE, 128, 80)`.

Python integers are embedded as `Nat` (all quantities involved are
non-negative; `//` is `Nat` division).  The `float32` element payload is
embedded as an arbitrary commutative ring `R`: the kernels only multiply
and add element values, and the scalar factors actually used are `1` and
`-1`, for which IEEE float arithmetic agrees with the ring laws.
Concrete witnesses instantiate `R := ℤ`.

All three CUDA kernels have the same strided-loop shape: thread
`(blockIdx.x = g, threadIdx.x = t)` starts at `i = g*T + t` and while
`i < n` writes cell `i` and advances by `total_threads = G*T`.  A kernel
launch is embedded by running the threads' loops sequentially
(`stridedWrites` is one thread, `runBlock` one block, `runKernel` the
grid); this is faithful because each cell is written by at most one thread
and the written value depends only on the cell index, never on the output
buffer, so any interleaving yields the same memory.

Assertion failures (Python `assert`) are embedded as `none`: a method that
can fail returns `Option`.  `drv.mem_alloc` returns uninitialized memory,
embedded by an arbitrary contents function `uninit : Nat → R` supplied by
the caller; streams are opaque handles, embedded as `Option Nat` with
Python `is` on them embedded as equality of handles.
-/

namespace PyCuda

/-- Launch-geometry heuristic from `gpuarray.py` (`splay`): returns
`(block_count, threads_per_block, elems_per_block)`.  Mirrors the four
regimes of the source, first match wins; `//` is `Nat` division and the
source's `(n + m - 1) // m` ceiling divisions are kept literally. -/
def splay (n min_threads max_threads max_blocks : Nat) : Nat × Nat × Nat :=
  if n < min_threads then
    (1, min_threads, n)
  else if n < max_blocks * min_threads then
    ((n + min_threads - 1) / min_threads, min_threads, min_threads)
  else if n < max_blocks * max_threads then
    let grp := (n + min_threads - 1) / min_threads
    (max_blocks, ((grp + max_blocks - 1) / max_blocks) * min_threads,
      ((grp + max_blocks - 1) / max_blocks) * min_threads)
  else
    let grp := ((n + min_threads - 1) / min_threads + max_blocks - 1) / max_blocks
    (max_blocks, max_threads, grp * min_threads)

/-- WARP_SIZE constant from `gpuarray.py`. -/
def WARP_SIZE : Nat := 32

variable {R : Type} [CommRing R]

/-- One GPU thread of a strided-loop kernel: starting at index `i`, while
`i < n` write `f i` to cell `i` of the buffer and advance by the stride
`d` (= `total_threads`).  `fuel` bounds the recursion; every use passes
`fuel = n + 1`, which is enough iterations for any positive stride. -/
def stridedWrites (f : Nat → R) (n d : Nat) : Nat → Nat → List R → List R
  | 0, _, mem => mem
  | fuel + 1, i, mem =>
    if i < n then stridedWrites f n d fuel (i + d) (mem.set i (f i)) else mem

/-- All `T` threads of block `g` of a strided-loop kernel launched on a
`G`-block grid: thread `t` starts at `cta_start + tid = g*T + t` and
strides by `total_threads = G*T`. -/
def runBlock (f : Nat → R) (n G T g : Nat) (mem : List R) : List R :=
  (List.range T).foldl (fun m t => stridedWrites f n (G * T) (n + 1) (g * T + t) m) mem

/-- A whole strided-loop kernel launch on grid `(G,1)`, block `(T,1,1)`,
writing `f i` to every cell `i < n` that some thread visits. -/
def runKernel (f : Nat → R) (G T n : Nat) (mem : List R) : List R :=
  (List.range G).foldl (fun m g => runBlock f n G T g m) mem

/-- The numpy dtypes this embedding distinguishes.  The source only ever
compares dtypes for equality and against `numpy.float32`. -/
inductive DType
  | float32
  | float64
  | int32
deriving DecidableEq

/-- A host-side numpy array: shape, dtype and flat contents. -/
structure NDArray (R : Type) where
  shape : List Nat
  dtype : DType
  data : List R
deriving DecidableEq

/-- numpy's `ary.size`: the element count, the product of the shape. -/
def NDArray.size (a : NDArray R) : Nat := a.shape.prod

/-- A device-resident array (`class GPUArray`): `gpudata` holds the
contents of the device allocation made in `__init__`. -/
structure GPUArray (R : Type) where
  shape : List Nat
  dtype : DType
  gpudata : List R
  stream : Option Nat
deriving DecidableEq

/-- `self.size = product(shape)` as computed in `__init__`. -/
def GPUArray.size (a : GPUArray R) : Nat := a.shape.prod

/-- `GPUArray.__init__`: allocates `size` elements of device memory with
arbitrary (uninitialized) contents `uninit`, records shape, dtype and the
optional stream (default `None`). -/
def GPUArray.alloc (shape : List Nat) (dtype : DType) (stream : Option Nat)
    (uninit : Nat → R) : GPUArray R :=
  ⟨shape, dtype, (List.range shape.prod).map uninit, stream⟩

/-- The element of the device buffer at flat index `i`. -/
def GPUArray.item (a : GPUArray R) (i : Nat) : R := a.gpudata.getD i 0

/-- `GPUArray.set`: asserts `ary.size == self.size` and
`ary.dtype == self.dtype`, then copies the host contents to the device
buffer (`memcpy_htod`).  The optional stream argument only controls
asynchrony and does not affect the transferred contents. -/
def GPUArray.set (self : GPUArray R) (ary : NDArray R) : Option (GPUArray R) :=
  if ary.size ≠ self.size then none
  else if ary.dtype ≠ self.dtype then none
  else some { self with gpudata := ary.data }

/-- `GPUArray.get` with no destination buffer: allocates a host array of
`self.shape`/`self.dtype` and copies the device buffer into it
(`memcpy_dtoh`). -/
def GPUArray.get (self : GPUArray R) : NDArray R :=
  ⟨self.shape, self.dtype, self.gpudata⟩

/-- `GPUArray._axpbyz`: asserts (in source order) `self.dtype` is
`float32`, shapes match, dtypes match, and — when either operand has a
stream — that the streams are identical; then launches the `axpbyz`
kernel (`z[i] = a*x[i] + b*y[i]`) into `out`'s buffer with the geometry
`splay(self.size, WARP_SIZE, 128, 80)`. -/
def GPUArray.axpbyz (self : GPUArray R) (selffac : R) (other : GPUArray R)
    (otherfac : R) (out : GPUArray R) : Option (GPUArray R) :=
  if self.dtype ≠ DType.float32 then none
  else if self.shape ≠ other.shape then none
  else if self.dtype ≠ other.dtype then none
  else if (self.stream ≠ none ∨ other.stream ≠ none) ∧ self.stream ≠ other.stream then none
  else
    let s := splay self.size WARP_SIZE 128 80
    some { out with
      gpudata := runKernel
        (fun i => selffac * self.gpudata.getD i 0 + otherfac * other.gpudata.getD i 0)
        s.1 s.2.1 self.size out.gpudata }

/-- `GPUArray.__add__`: allocates `result = GPUArray(self.shape, self.dtype)`
(no stream) and runs `_axpbyz(1, other, 1, result)`. -/
def GPUArray.add (self other : GPUArray R) (uninit : Nat → R) : Option (GPUArray R) :=
  self.axpbyz 1 other 1 (GPUArray.alloc self.shape self.dtype none uninit)

/-- `GPUArray.__sub__`: allocates `result = GPUArray(self.shape, self.dtype)`
(no stream) and runs `_axpbyz(1, other, -1, result)`. -/
def GPUArray.sub (self other : GPUArray R) (uninit : Nat → R) : Option (GPUArray R) :=
  self.axpbyz 1 other (-1) (GPUArray.alloc self.shape self.dtype none uninit)

/-- `GPUArray._scale`: asserts `self.dtype` is `float32`, allocates
`result = GPUArray(self.shape, self.dtype)` (no stream) and launches the
`scale` kernel (`y[i] = a*x[i]`) into `result`'s buffer with geometry
`splay(self.size, WARP_SIZE, 128, 80)`. -/
def GPUArray.scale (self : GPUArray R) (factor : R) (uninit : Nat → R) :
    Option (GPUArray R) :=
  if self.dtype ≠ DType.float32 then none
  else
    let s := splay self.size WARP_SIZE 128 80
    let result : GPUArray R := GPUArray.alloc self.shape self.dtype none uninit
    some { result with
      gpudata := runKernel (fun i => factor * self.gpudata.getD i 0)
        s.1 s.2.1 self.size result.gpudata }

/-- `GPUArray.__neg__`: `self._scale(-1)`. -/
def GPUArray.neg (self : GPUArray R) (uninit : Nat → R) : Option (GPUArray R) :=
  self.scale (-1) uninit

/-- `GPUArray.fill`: asserts `self.dtype` is `float32`, allocates
`result = GPUArray(self.shape, self.dtype)` (no stream), then launches
the `fill` kernel (`x[i] = a`) **on `self.gpudata`** — the source passes
`self.gpudata`, not `result.gpudata`, to the kernel — and returns
`result`.  The pair is `(receiver after the call, returned array)`. -/
def GPUArray.fill (self : GPUArray R) (value : R) (uninit : Nat → R) :
    Option (GPUArray R × GPUArray R) :=
  if self.dtype ≠ DType.float32 then none
  else
    let s := splay self.size WARP_SIZE 128 80
    let result : GPUArray R := GPUArray.alloc self.shape self.dtype none uninit
    some ({ self with
        gpudata := runKernel (fun _ => value) s.1 s.2.1 self.size self.gpudata },
      result)

/-- `zeros(shape, dtype, stream)`: constructs
`result = GPUArray(shape, dtype, stream)`, calls `result.fill(0)` —
whose return value the source discards — and returns `result` (whose
device buffer the fill kernel wrote). -/
def zeros (shape : List Nat) (dtype : DType) (stream : Option Nat)
    (uninit₁ uninit₂ : Nat → R) : Option (GPUArray R) :=
  let result : GPUArray R := GPUArray.alloc shape dtype stream uninit₁
  match result.fill 0 uninit₂ with
  | some (result', _) => some result'
  | none => none

/-! ### Arithmetic helper lemmas -/

/-- Ceiling division `(n + m - 1) / m` is at most `k` once `n ≤ k * m`. -/
lemma ceil_div_le {m n k : Nat} (hm : 0 < m) (h : n ≤ k * m) : (n + m - 1) / m ≤ k := by
  have h2 : n + m - 1 < (k + 1) * m := by
    have h3 : (k + 1) * m = k * m + m := by ring
    omega
  exact Nat.lt_succ_iff.mp ((Nat.div_lt_iff_lt_mul hm).mpr h2)

/-! ### splay facts -/

/-- Under the constraints `minT ≥ 1`, `maxT ≥ minT`, `maxG ≥ 1`, every
regime of `splay` returns a positive block count and a positive thread
count. -/
lemma splay_pos (n minT maxT maxG : Nat) (h1 : 1 ≤ minT) (h2 : minT ≤ maxT)
    (h3 : 1 ≤ maxG) :
    1 ≤ (splay n minT maxT maxG).1 ∧ 1 ≤ (splay n minT maxT maxG).2.1 := by
  unfold splay
  split_ifs with ha hb hc
  · exact ⟨le_refl 1, h1⟩
  · constructor
    · show 1 ≤ (n + minT - 1) / minT
      rw [Nat.one_le_div_iff h1]
      omega
    · exact h1
  · refine ⟨h3, ?_⟩
    show 1 ≤ ((n + minT - 1) / minT + maxG - 1) / maxG * minT
    have hn : maxG * minT ≤ n := le_of_not_lt hb
    have hm : 1 ≤ maxG * minT := Nat.mul_pos h3 h1
    have hgrp : 1 ≤ (n + minT - 1) / minT := by
      rw [Nat.one_le_div_iff h1]
      omega
    have hc1 : 1 ≤ ((n + minT - 1) / minT + maxG - 1) / maxG := by
      rw [Nat.one_le_div_iff h3]
      omega
    exact Nat.mul_pos hc1 h1
  · exact ⟨h3, le_trans h1 h2⟩

/-! ### Strided-loop kernel semantics -/

/-- Index `i` is one of the indices `s, s + d, s + 2·d, …` visited by a
thread that starts at `s` and strides by `d`.  (The bound `k ≤ i` is
redundant for positive strides and only makes the predicate decidable.) -/
def hits (s d i : Nat) : Prop := ∃ k, k ≤ i ∧ i = s + k * d

instance hitsDecidable (s d i : Nat) : Decidable (hits s d i) :=
  decidable_of_iff (∃ k < i + 1, i = s + k * d) (by
    constructor
    · rintro ⟨k, hk, he⟩
      exact ⟨k, Nat.lt_succ_iff.mp hk, he⟩
    · rintro ⟨k, hk, he⟩
      exact ⟨k, Nat.lt_succ_iff.mpr hk, he⟩)

lemma stridedWrites_length (f : Nat → R) (n d : Nat) :
    ∀ (fuel i : Nat) (mem : List R), (stridedWrites f n d fuel i mem).length = mem.length
  | 0, _, _ => rfl
  | fuel + 1, i, mem => by
    simp only [stridedWrites]
    split
    · rw [stridedWrites_length f n d fuel _ _, List.length_set]
    · rfl

/-- Characterization of a single thread's loop: with a positive stride and
enough fuel, cell `j` of the result holds `f j` exactly when the thread
visits `j` (`j < n`, `j` in bounds, and `j` on the thread's arithmetic
progression); other cells keep their old contents. -/
lemma stridedWrites_getElem? (f : Nat → R) (n d : Nat) (hd : 1 ≤ d) :
    ∀ (fuel i₀ : Nat) (mem : List R), n ≤ i₀ + fuel → ∀ (j : Nat),
      (stridedWrites f n d fuel i₀ mem)[j]? =
        if j < n ∧ j < mem.length ∧ hits i₀ d j then some (f j) else mem[j]? := by
  intro fuel
  induction fuel with
  | zero =>
    intro i₀ mem hn j
    simp only [stridedWrites]
    rw [if_neg]
    rintro ⟨hj, -, hh⟩
    simp only [hits] at hh
    obtain ⟨k, -, rfl⟩ := hh
    omega
  | succ fuel ih =>
    intro i₀ mem hn j
    simp only [stridedWrites]
    split
    case isTrue hi =>
      rw [ih (i₀ + d) _ (by omega) j, List.length_set, List.getElem?_set]
      by_cases hji : i₀ = j
      · subst hji
        have h1 : hits i₀ d i₀ := ⟨0, Nat.zero_le _, by simp⟩
        have h2 : ¬ hits (i₀ + d) d i₀ := by
          rintro ⟨k, -, he⟩
          have hkd : k ≤ k * d := Nat.le_mul_of_pos_right k hd
          omega
        by_cases hl : i₀ < mem.length
        · simp [h1, h2, hi, hl]
        · simp [h1, h2, hi, hl, List.getElem?_eq_none (le_of_not_lt hl)]
      · have h3 : hits (i₀ + d) d j ↔ hits i₀ d j := by
          constructor
          · rintro ⟨k, hk, he⟩
            refine ⟨k + 1, ?_, ?_⟩
            · have hkd : k ≤ k * d := Nat.le_mul_of_pos_right k hd
              omega
            · have hr : (k + 1) * d = k * d + d := by ring
              omega
          · rintro ⟨k, hk, he⟩
            match k with
            | 0 =>
              exfalso
              apply hji
              omega
            | k + 1 =>
              refine ⟨k, by omega, ?_⟩
              have hr : (k + 1) * d = k * d + d := by ring
              omega
        rw [if_neg hji]
        simp only [h3]
    case isFalse hi =>
      rw [if_neg]
      rintro ⟨hj, -, hh⟩
      simp only [hits] at hh
      obtain ⟨k, -, rfl⟩ := hh
      omega

/-- Running a list of threads (one `stridedWrites` per start offset
`c + t`, `t ∈ ts`) sequentially: cell `j` holds `f j` exactly when some
thread in the list visits it. -/
lemma foldl_stridedWrites_getElem? (f : Nat → R) (n d : Nat) (hd : 1 ≤ d) (c : Nat) :
    ∀ (ts : List Nat) (mem : List R) (j : Nat),
      (ts.foldl (fun m t => stridedWrites f n d (n + 1) (c + t) m) mem)[j]? =
        if j < n ∧ j < mem.length ∧ ∃ t ∈ ts, hits (c + t) d j then some (f j)
        else mem[j]? := by
  intro ts
  induction ts with
  | nil =>
    intro mem j
    simp
  | cons t ts ih =>
    intro mem j
    rw [List.foldl_cons, ih, stridedWrites_length,
      stridedWrites_getElem? f n d hd (n + 1) (c + t) mem (by omega) j]
    by_cases h1 : j < n
    · by_cases h2 : j < mem.length
      · by_cases h3 : hits (c + t) d j
        · simp [h1, h2, h3]
        · by_cases h4 : ∃ t' ∈ ts, hits (c + t') d j
          · simp [h1, h2, h3, h4]
          · simp [h1, h2, h3, h4]
      · simp [h1, h2]
    · simp [h1]

lemma foldl_stridedWrites_length (f : Nat → R) (n d c : Nat) :
    ∀ (ts : List Nat) (mem : List R),
      (ts.foldl (fun m t => stridedWrites f n d (n + 1) (c + t) m) mem).length =
        mem.length := by
  intro ts
  induction ts with
  | nil => intro mem; rfl
  | cons t ts ih =>
    intro mem
    rw [List.foldl_cons, ih, stridedWrites_length]

lemma runBlock_length (f : Nat → R) (n G T g : Nat) (mem : List R) :
    (runBlock f n G T g mem).length = mem.length :=
  foldl_stridedWrites_length f n (G * T) (g * T) (List.range T) mem

/-- Characterization of one block: cell `j` holds `f j` exactly when one
of the block's `T` threads visits it. -/
lemma runBlock_getElem? (f : Nat → R) (n G T g : Nat) (hd : 1 ≤ G * T)
    (mem : List R) (j : Nat) :
    (runBlock f n G T g mem)[j]? =
      if j < n ∧ j < mem.length ∧ ∃ t < T, hits (g * T + t) (G * T) j then some (f j)
      else mem[j]? := by
  rw [runBlock, foldl_stridedWrites_getElem? f n (G * T) hd (g * T)]
  simp only [List.mem_range]

/-- Characterization of a whole launch over an arbitrary list of block
indices. -/
lemma foldl_runBlock_getElem? (f : Nat → R) (n G T : Nat) (hd : 1 ≤ G * T) :
    ∀ (gs : List Nat) (mem : List R) (j : Nat),
      (gs.foldl (fun m g => runBlock f n G T g m) mem)[j]? =
        if j < n ∧ j < mem.length ∧ ∃ g ∈ gs, ∃ t < T, hits (g * T + t) (G * T) j
        then some (f j) else mem[j]? := by
  intro gs
  induction gs with
  | nil =>
    intro mem j
    simp
  | cons g gs ih =>
    intro mem j
    rw [List.foldl_cons, ih, runBlock_length,
      runBlock_getElem? f n G T g hd mem j]
    by_cases h1 : j < n
    · by_cases h2 : j < mem.length
      · by_cases h3 : ∃ t < T, hits (g * T + t) (G * T) j
        · simp [h1, h2, h3]
        · by_cases h4 : ∃ g' ∈ gs, ∃ t < T, hits (g' * T + t) (G * T) j
          · simp [h1, h2, h3, h4]
          · simp [h1, h2, h3, h4]
      · simp [h1, h2]
    · simp [h1]

/-- Every index is on the arithmetic progression of some thread of the
grid: the thread of flat id `j % (G·T)` (block `j % (G·T) / T`, local id
`j % (G·T) % T`), at loop iteration `j / (G·T)`. -/
lemma full_cover {G T : Nat} (hG : 1 ≤ G) (hT : 1 ≤ T) (j : Nat) :
    ∃ g < G, ∃ t < T, hits (g * T + t) (G * T) j := by
  have hs : 0 < G * T := Nat.mul_pos hG hT
  refine ⟨j % (G * T) / T, ?_, j % (G * T) % T, Nat.mod_lt _ hT, ?_⟩
  · exact (Nat.div_lt_iff_lt_mul hT).mpr (Nat.mod_lt _ hs)
  · refine ⟨j / (G * T), Nat.div_le_self _ _, ?_⟩
    have h1 : j % (G * T) / T * T + j % (G * T) % T = j % (G * T) := by
      rw [Nat.mul_comm]
      exact Nat.div_add_mod _ _
    have h2 : j % (G * T) + G * T * (j / (G * T)) = j := Nat.mod_add_div _ _
    have h3 : j / (G * T) * (G * T) = G * T * (j / (G * T)) := Nat.mul_comm _ _
    omega

/-- Kernel-launch semantics with a positive grid: cell `j` of the output
holds `f j` for every in-bounds `j < n`, and keeps its old contents
otherwise. -/
lemma runKernel_getElem? (f : Nat → R) (G T n : Nat) (hG : 1 ≤ G) (hT : 1 ≤ T)
    (mem : List R) (j : Nat) :
    (runKernel f G T n mem)[j]? =
      if j < n ∧ j < mem.length then some (f j) else mem[j]? := by
  have hGT : 1 ≤ G * T := Nat.mul_pos hG hT
  rw [runKernel, foldl_runBlock_getElem? f n G T hGT]
  have hcov := full_cover hG hT j
  simp [hcov]

lemma runKernel_length (f : Nat → R) (G T n : Nat) (mem : List R) :
    (runKernel f G T n mem).length = mem.length := by
  rw [runKernel]
  induction List.range G generalizing mem with
  | nil => rfl
  | cons g gs ih =>
    rw [List.foldl_cons, ih, runBlock_length]

/-- A kernel launched over a full-length buffer computes exactly the map
of `f` over `[0, n)`. -/
lemma runKernel_eq_map (f : Nat → R) (G T n : Nat) (hG : 1 ≤ G) (hT : 1 ≤ T)
    (mem : List R) (hlen : mem.length = n) :
    runKernel f G T n mem = (List.range n).map f := by
  apply List.ext_getElem?
  intro j
  rw [runKernel_getElem? f G T n hG hT]
  by_cases hj : j < n
  · simp [hj, hlen, List.getElem?_map, List.getElem?_range]
  · rw [if_neg (by omega)]
    have h1 : mem[j]? = none := List.getElem?_eq_none (by omega)
    have h2 : ((List.range n).map f)[j]? = none :=
      List.getElem?_eq_none (by simp; omega)
    rw [h1, h2]

/-- The value read at an in-bounds index after a kernel launch. -/
lemma runKernel_getD (f : Nat → R) (G T n : Nat) (hG : 1 ≤ G) (hT : 1 ≤ T)
    (mem : List R) (j : Nat) (hj : j < n) (hjl : j < mem.length) :
    (runKernel f G T n mem).getD j 0 = f j := by
  rw [List.getD_eq_getElem?_getD, runKernel_getElem? f G T n hG hT, if_pos ⟨hj, hjl⟩]
  rfl

/-- A kernel launch with `n = 0` never enters a loop body: memory is
unchanged. -/
lemma runKernel_zero (f : Nat → R) (G T : Nat) (mem : List R) :
    runKernel f G T 0 mem = mem := by
  rw [runKernel]
  induction List.range G generalizing mem with
  | nil => rfl
  | cons g gs ih =>
    rw [List.foldl_cons]
    have hb : runBlock f 0 G T g mem = mem := by
      rw [runBlock]
      induction List.range T generalizing mem with
      | nil => rfl
      | cons t ts iht =>
        rw [List.foldl_cons]
        have hs : stridedWrites f 0 (G * T) (0 + 1) (g * T + t) mem = mem := by
          simp [stridedWrites]
        rw [hs, iht]
    rw [hb, ih]

/-- Unique decomposition of a global index as
`block · T + local + iteration · (G · T)` with in-range block and local
ids: each index is visited by exactly one thread at exactly one loop
iteration. -/
lemma decode_unique {G T : Nat} (hG : 1 ≤ G) (hT : 1 ≤ T) (i : Nat) :
    ∃! p : Nat × Nat × Nat,
      p.1 < G ∧ p.2.1 < T ∧ p.1 * T + p.2.1 + p.2.2 * (G * T) = i := by
  have hs : 0 < G * T := Nat.mul_pos hG hT
  refine ⟨(i % (G * T) / T, i % (G * T) % T, i / (G * T)), ?_, ?_⟩
  · dsimp only
    refine ⟨?_, ?_, ?_⟩
    · exact (Nat.div_lt_iff_lt_mul hT).mpr (Nat.mod_lt _ hs)
    · exact Nat.mod_lt _ hT
    · have h1 : i % (G * T) / T * T + i % (G * T) % T = i % (G * T) := by
        rw [Nat.mul_comm]
        exact Nat.div_add_mod _ _
      have h2 : i % (G * T) + G * T * (i / (G * T)) = i := Nat.mod_add_div _ _
      have h3 : i / (G * T) * (G * T) = G * T * (i / (G * T)) := Nat.mul_comm _ _
      omega
  · rintro ⟨g, t, k⟩ ⟨hg, ht, he⟩
    dsimp only at hg ht he ⊢
    have hr : g * T + t < G * T := by
      have hgm : (g + 1) * T ≤ G * T := Nat.mul_le_mul_right T hg
      have hx : (g + 1) * T = g * T + T := by ring
      omega
    have hdiv : (g * T + t + k * (G * T)) / (G * T) = k := by
      rw [Nat.add_mul_div_right _ _ hs, Nat.div_eq_of_lt hr, Nat.zero_add]
    have hmod : (g * T + t + k * (G * T)) % (G * T) = g * T + t := by
      rw [Nat.add_mul_mod_self_right, Nat.mod_eq_of_lt hr]
    have hk : k = i / (G * T) := by rw [← he, hdiv]
    have hgt : g * T + t = i % (G * T) := by rw [← he, hmod]
    have ht2 : t = i % (G * T) % T := by
      have hx : (g * T + t) % T = t % T := by
        rw [Nat.mul_comm g T]
        exact Nat.mul_add_mod T g t
      rw [← hgt, hx, Nat.mod_eq_of_lt ht]
    have hg2 : g = i % (G * T) / T := by
      have hx : (g * T + t) / T = g + t / T := by
        rw [Nat.add_comm (g * T) t, Nat.add_mul_div_right _ _ hT]
        omega
      rw [← hgt, hx, Nat.div_eq_of_lt ht, Nat.add_zero]
    exact Prod.ext hg2 (Prod.ext ht2 hk)

/-! ### GPUArray operation lemmas -/

@[simp] lemma alloc_shape (shape : List Nat) (dt : DType) (st : Option Nat) (u : Nat → R) :
    (GPUArray.alloc shape dt st u).shape = shape := rfl

@[simp] lemma alloc_dtype (shape : List Nat) (dt : DType) (st : Option Nat) (u : Nat → R) :
    (GPUArray.alloc shape dt st u).dtype = dt := rfl

@[simp] lemma alloc_stream (shape : List Nat) (dt : DType) (st : Option Nat) (u : Nat → R) :
    (GPUArray.alloc shape dt st u).stream = st := rfl

@[simp] lemma alloc_gpudata (shape : List Nat) (dt : DType) (st : Option Nat) (u : Nat → R) :
    (GPUArray.alloc shape dt st u).gpudata = (List.range shape.prod).map u := rfl

@[simp] lemma alloc_size (shape : List Nat) (dt : DType) (st : Option Nat) (u : Nat → R) :
    (GPUArray.alloc shape dt st u).size = shape.prod := rfl

/-- Positive launch geometry for the fixed dispatch parameters
`(WARP_SIZE, 128, 80)` used by all three kernel operations. -/
lemma dispatch_pos (n : Nat) :
    1 ≤ (splay n WARP_SIZE 128 80).1 ∧ 1 ≤ (splay n WARP_SIZE 128 80).2.1 :=
  splay_pos n WARP_SIZE 128 80 (by decide) (by decide) (by decide)

/-- When all four of `_axpbyz`'s assertions pass, the kernel launch is
performed into `out`'s buffer. -/
lemma axpbyz_eq (x : GPUArray R) (a : R) (y : GPUArray R) (b : R) (out : GPUArray R)
    (hdt : x.dtype = DType.float32) (hsh : x.shape = y.shape)
    (hdt2 : x.dtype = y.dtype) (hst : x.stream = y.stream) :
    x.axpbyz a y b out =
      some { out with
        gpudata := runKernel
          (fun i => a * x.gpudata.getD i 0 + b * y.gpudata.getD i 0)
          (splay x.size WARP_SIZE 128 80).1 (splay x.size WARP_SIZE 128 80).2.1
          x.size out.gpudata } := by
  rw [GPUArray.axpbyz, if_neg (by simp [hdt]), if_neg (by simp [hsh]),
    if_neg (by simp [hdt2]), if_neg (by simp [hst])]

/-- `_axpbyz` fails exactly when the shapes differ, an operand's dtype is
not float32, or the operands' stream fields differ (a missing stream
counts as different from any present one). -/
lemma axpbyz_none_iff (x y out : GPUArray R) (a b : R) :
    x.axpbyz a y b out = none ↔
      ¬ (x.shape = y.shape ∧ x.dtype = DType.float32 ∧ y.dtype = DType.float32 ∧
          x.stream = y.stream) := by
  rw [GPUArray.axpbyz]
  split_ifs with c1 c2 c3 c4
  · simp only [eq_self_iff_true, true_iff]
    rintro ⟨-, hx, -, -⟩
    exact c1 hx
  · simp only [eq_self_iff_true, true_iff]
    rintro ⟨hs, -, -, -⟩
    exact c2 hs
  · simp only [eq_self_iff_true, true_iff]
    rintro ⟨-, hx, hy, -⟩
    exact c3 (hx.trans hy.symm)
  · simp only [eq_self_iff_true, true_iff]
    rintro ⟨-, -, -, hst⟩
    exact c4.2 hst
  · push_neg at c1 c2 c3 c4
    have hst : x.stream = y.stream := by
      by_cases hx0 : x.stream = none
      · by_cases hy0 : y.stream = none
        · rw [hx0, hy0]
        · exact c4 (Or.inr hy0)
      · exact c4 (Or.inl hx0)
    simp [c1, c2, c3, hst, c1 ▸ c3]

/-- When `_scale`'s dtype assertion passes, the kernel launch is
performed into the freshly allocated result's buffer. -/
lemma scale_eq (x : GPUArray R) (c : R) (u : Nat → R) (hdt : x.dtype = DType.float32) :
    x.scale c u =
      some { GPUArray.alloc x.shape x.dtype none u with
        gpudata := runKernel (fun i => c * x.gpudata.getD i 0)
          (splay x.size WARP_SIZE 128 80).1 (splay x.size WARP_SIZE 128 80).2.1
          x.size ((List.range x.shape.prod).map u) } := by
  rw [GPUArray.scale, if_neg (by simp [hdt])]
  rfl

/-- When `fill`'s dtype assertion passes: the fill kernel overwrites every
cell of the RECEIVER's full-length buffer with the value, while the
freshly allocated returned array keeps its allocation-time contents. -/
lemma fill_eq (x : GPUArray R) (v : R) (u : Nat → R) (hdt : x.dtype = DType.float32)
    (hlen : x.gpudata.length = x.size) :
    x.fill v u =
      some ({ x with gpudata := List.replicate x.size v },
        GPUArray.alloc x.shape x.dtype none u) := by
  rw [GPUArray.fill, if_neg (by simp [hdt])]
  have hpos := dispatch_pos x.size
  dsimp only
  rw [runKernel_eq_map _ _ _ _ hpos.1 hpos.2 _ hlen, List.map_const', List.length_range]

/-! ### Claim theorems -/

/-- C1, counterexample: at `(n, minT, maxT, maxG) = (5, 2, 3, 2)` — which
satisfies `minT ≥ 1`, `maxT ≥ minT`, `maxG ≥ 1` — `splay` returns
`threadsPerGroup = 4 > maxT = 3`, so the claimed bounds do not hold for
all inputs in the claimed range. -/
theorem splay_bounds_counterexample :
    ((1 : Nat) ≤ 2 ∧ (2 : Nat) ≤ 3 ∧ (1 : Nat) ≤ 2) ∧
      ¬ ((splay 5 2 3 2).1 ≤ 2 ∧ (splay 5 2 3 2).2.1 ≤ 3 ∧
          2 ∣ (splay 5 2 3 2).2.1) := by
  decide

/-- C1 (amended): for every `n ≥ 0`, `minT ≥ 1`, `maxT ≥ minT`, `maxG ≥ 1`
with additionally `minT` dividing `maxT` (as in the source's only call
sites, `minT = 32`, `maxT = 128`), `splay` returns a group count at most
`maxG` and a thread count that is at most `maxT` and an exact multiple of
`minT`. -/
theorem splay_bounds_amended (n minT maxT maxG : Nat) (h1 : 1 ≤ minT)
    (h2 : minT ≤ maxT) (h3 : 1 ≤ maxG) (hdvd : minT ∣ maxT) :
    (splay n minT maxT maxG).1 ≤ maxG ∧ (splay n minT maxT maxG).2.1 ≤ maxT ∧
      minT ∣ (splay n minT maxT maxG).2.1 := by
  obtain ⟨q, hq⟩ := hdvd
  unfold splay
  split_ifs with ha hb hc
  · exact ⟨h3, h2, dvd_refl _⟩
  · exact ⟨ceil_div_le h1 (Nat.le_of_lt hb), h2, dvd_refl _⟩
  · dsimp only
    refine ⟨le_refl _, ?_, dvd_mul_left minT _⟩
    have hng : n ≤ maxG * q * minT := by
      have hx : maxG * maxT = maxG * q * minT := by rw [hq]; ring
      omega
    have hgrp : (n + minT - 1) / minT ≤ maxG * q := ceil_div_le h1 hng
    have hc2 : ((n + minT - 1) / minT + maxG - 1) / maxG ≤ q := by
      apply ceil_div_le h3
      calc (n + minT - 1) / minT ≤ maxG * q := hgrp
      _ = q * maxG := by ring
    calc ((n + minT - 1) / minT + maxG - 1) / maxG * minT
        ≤ q * minT := Nat.mul_le_mul_right _ hc2
      _ = minT * q := by ring
      _ = maxT := hq.symm
  · exact ⟨le_refl _, le_refl _, ⟨q, hq⟩⟩

theorem splay_bounds_witness :
    ((1 : Nat) ≤ 32 ∧ (32 : Nat) ≤ 128 ∧ (1 : Nat) ≤ 80 ∧ (32 : Nat) ∣ 128) ∧
      ((splay 1000 32 128 80).1 ≤ 80 ∧ (splay 1000 32 128 80).2.1 ≤ 128 ∧
        32 ∣ (splay 1000 32 128 80).2.1) :=
  ⟨by decide,
    splay_bounds_amended 1000 32 128 80 (by decide) (by decide) (by decide) (by decide)⟩

/-- C2: with `(G, T)` the group count and threads per group returned by
`splay` (for any `n ≥ 0`, `minT ≥ 1`, `maxT ≥ minT`, `maxG ≥ 1`), every
index `i < n` is reached by exactly one combination of group index
`g < G`, local thread index `t < T` and loop iteration `k` of the strided
loop `index = g*T + t; index += G*T while index < n`: the launch visits
every index of `[0, n)` exactly once across all threads. -/
theorem splay_strided_coverage (n minT maxT maxG : Nat) (h1 : 1 ≤ minT)
    (h2 : minT ≤ maxT) (h3 : 1 ≤ maxG) (i : Nat) (_hi : i < n) :
    ∃! p : Nat × Nat × Nat,
      p.1 < (splay n minT maxT maxG).1 ∧
      p.2.1 < (splay n minT maxT maxG).2.1 ∧
      p.1 * (splay n minT maxT maxG).2.1 + p.2.1 +
        p.2.2 * ((splay n minT maxT maxG).1 * (splay n minT maxT maxG).2.1) = i := by
  obtain ⟨hG, hT⟩ := splay_pos n minT maxT maxG h1 h2 h3
  exact decode_unique hG hT i

theorem splay_strided_coverage_witness :
    ((1 : Nat) ≤ 32 ∧ (32 : Nat) ≤ 128 ∧ (1 : Nat) ≤ 80 ∧ (3 : Nat) < 1000) ∧
      ∃! p : Nat × Nat × Nat,
        p.1 < (splay 1000 32 128 80).1 ∧
        p.2.1 < (splay 1000 32 128 80).2.1 ∧
        p.1 * (splay 1000 32 128 80).2.1 + p.2.1 +
          p.2.2 * ((splay 1000 32 128 80).1 * (splay 1000 32 128 80).2.1) = 3 :=
  ⟨by decide,
    splay_strided_coverage 1000 32 128 80 (by decide) (by decide) (by decide) 3 (by decide)⟩

/-- C9: for `n = 0` the first regime of `splay` applies, returning the
well-defined configuration `(1, minGroupThreads, 0)`, and any strided-loop
kernel dispatched with that configuration and `n = 0` performs no element
writes at all — the memory is returned unchanged. -/
theorem splay_zero_safe (minT maxT maxG : Nat) (h1 : 1 ≤ minT) (h2 : minT ≤ maxT)
    (h3 : 1 ≤ maxG) :
    splay 0 minT maxT maxG = (1, minT, 0) ∧
      ∀ (f : Nat → R) (mem : List R),
        runKernel f (splay 0 minT maxT maxG).1 (splay 0 minT maxT maxG).2.1 0 mem =
          mem := by
  constructor
  · rw [splay, if_pos (show 0 < minT from h1)]
  · intro f mem
    exact runKernel_zero f _ _ mem

theorem splay_zero_safe_witness :
    ((1 : Nat) ≤ 32 ∧ (32 : Nat) ≤ 128 ∧ (1 : Nat) ≤ 80) ∧
      splay 0 32 128 80 = (1, 32, 0) ∧
      runKernel (fun _ => (5 : ℤ)) (splay 0 32 128 80).1 (splay 0 32 128 80).2.1 0
          [(3 : ℤ), 4] = [(3 : ℤ), 4] := by
  have h := splay_zero_safe (R := ℤ) 32 128 80 (by decide) (by decide) (by decide)
  exact ⟨by decide, h.1, h.2 _ _⟩

/-- C3, counterexample: on the float32 array with storage `[5]`, calling
`fill 7` (with allocation contents `3` for the new array) succeeds, but
the element of the RETURNED array is `3` (its uninitialized allocation
contents), not the fill value `7`, and the receiver's storage has become
`[7]`, i.e. it was not left unchanged.  Both parts of the claim fail. -/
theorem fill_target_counterexample :
    (GPUArray.fill (R := ℤ) ⟨[1], DType.float32, [5], none⟩ 7 (fun _ => 3)).map
        (fun p => (p.2.item 0, p.1.gpudata)) = some (3, [7]) ∧
      (3 : ℤ) ≠ 7 ∧ ([7] : List ℤ) ≠ [5] := by
  decide

/-- C3 (amended): `fill(x, v)` writes `v` into every element of the
RECEIVER `x`'s own device storage (the source passes `self.gpudata` to
the fill kernel), and returns a newly allocated array of the same shape
and dtype, without stream, whose storage is never written — it keeps its
allocation-time (uninitialized) contents. -/
theorem fill_writes_receiver (x : GPUArray R) (v : R) (u : Nat → R)
    (hdt : x.dtype = DType.float32) (hlen : x.gpudata.length = x.size) :
    x.fill v u =
      some ({ x with gpudata := List.replicate x.size v },
        GPUArray.alloc x.shape x.dtype none u) :=
  fill_eq x v u hdt hlen

theorem fill_writes_receiver_witness :
    ((⟨[2], DType.float32, [5, 6], none⟩ : GPUArray ℤ).dtype = DType.float32 ∧
        (⟨[2], DType.float32, [5, 6], none⟩ : GPUArray ℤ).gpudata.length =
          (⟨[2], DType.float32, [5, 6], none⟩ : GPUArray ℤ).size) ∧
      GPUArray.fill (R := ℤ) ⟨[2], DType.float32, [5, 6], none⟩ 7 (fun _ => 3) =
        some ({ (⟨[2], DType.float32, [5, 6], none⟩ : GPUArray ℤ) with
            gpudata := List.replicate (⟨[2], DType.float32, [5, 6], none⟩ :
              GPUArray ℤ).size 7 },
          GPUArray.alloc [2] DType.float32 none (fun _ => 3)) :=
  ⟨by decide,
    fill_writes_receiver ⟨[2], DType.float32, [5, 6], none⟩ 7 (fun _ => 3)
      (by decide) (by decide)⟩

/-- C4: for every shape (and stream and allocation contents),
`zeros(shape, float32)` succeeds and returns an array every element of
which reads back via `get` as `0`. -/
theorem zeros_all_zero (shape : List Nat) (stream : Option Nat) (u1 u2 : Nat → R) :
    ∃ z : GPUArray R, zeros shape DType.float32 stream u1 u2 = some z ∧
      z.get = ⟨shape, DType.float32, List.replicate shape.prod 0⟩ := by
  have hfill := fill_eq (GPUArray.alloc shape DType.float32 stream u1) 0 u2
    (by simp) (by simp [GPUArray.size])
  simp only [zeros, hfill]
  refine ⟨_, rfl, ?_⟩
  simp [GPUArray.get, GPUArray.size]

/-- C5: `__add__` and `__sub__` are both realized by the single fused
`axpbyz` kernel — `add` as `_axpbyz(1, other, 1, fresh)` and `sub` as
`_axpbyz(1, other, -1, fresh)` on a freshly allocated output array;
whenever the call returns an array `z` at all, `z` has the receiver's
shape and `add(x,y)[i] = x[i] + y[i]` / `sub(x,y)[i] = x[i] - y[i]` for
every index; and for float32 operands of equal shape (with equal stream
fields, so that the dispatch's assertions pass — the failure case is
claim C8's subject) the call does return an array. -/
theorem add_sub_elementwise (x y : GPUArray R) (u : Nat → R) :
    (x.add y u = x.axpbyz 1 y 1 (GPUArray.alloc x.shape x.dtype none u) ∧
      x.sub y u = x.axpbyz 1 y (-1) (GPUArray.alloc x.shape x.dtype none u)) ∧
    (∀ z, x.add y u = some z → z.shape = x.shape ∧
      ∀ i < x.size, z.item i = x.item i + y.item i) ∧
    (∀ w, x.sub y u = some w → w.shape = x.shape ∧
      ∀ i < x.size, w.item i = x.item i - y.item i) ∧
    (x.dtype = DType.float32 → x.shape = y.shape → y.dtype = DType.float32 →
      x.stream = y.stream →
      (∃ z, x.add y u = some z) ∧ ∃ w, x.sub y u = some w) := by
  have hpos := dispatch_pos x.size
  refine ⟨⟨rfl, rfl⟩, ?_, ?_, ?_⟩
  · intro z h
    rw [GPUArray.add, GPUArray.axpbyz] at h
    split_ifs at h
    injection h with h2
    subst h2
    refine ⟨rfl, ?_⟩
    intro i hi
    have hlen : i < ((List.range x.shape.prod).map u).length := by
      simpa [GPUArray.size] using hi
    simp only [GPUArray.item]
    dsimp only [alloc_gpudata]
    rw [runKernel_getD _ _ _ _ hpos.1 hpos.2 _ i hi hlen]
    ring
  · intro w h
    rw [GPUArray.sub, GPUArray.axpbyz] at h
    split_ifs at h
    injection h with h2
    subst h2
    refine ⟨rfl, ?_⟩
    intro i hi
    have hlen : i < ((List.range x.shape.prod).map u).length := by
      simpa [GPUArray.size] using hi
    simp only [GPUArray.item]
    dsimp only [alloc_gpudata]
    rw [runKernel_getD _ _ _ _ hpos.1 hpos.2 _ i hi hlen]
    ring
  · intro hdt hsh hdt2 hst
    have hdd : x.dtype = y.dtype := hdt.trans hdt2.symm
    exact ⟨⟨_, axpbyz_eq x 1 y 1 _ hdt hsh hdd hst⟩,
      ⟨_, axpbyz_eq x 1 y (-1) _ hdt hsh hdd hst⟩⟩

theorem add_sub_elementwise_witness :
    GPUArray.add (R := ℤ) ⟨[2], DType.float32, [1, 2], none⟩
        ⟨[2], DType.float32, [10, 20], none⟩ (fun _ => 0) =
      some ⟨[2], DType.float32, [11, 22], none⟩ ∧
    ((⟨[2], DType.float32, [11, 22], none⟩ : GPUArray ℤ).shape =
        (⟨[2], DType.float32, [1, 2], none⟩ : GPUArray ℤ).shape ∧
      ∀ i < (⟨[2], DType.float32, [1, 2], none⟩ : GPUArray ℤ).size,
        (⟨[2], DType.float32, [11, 22], none⟩ : GPUArray ℤ).item i =
          (⟨[2], DType.float32, [1, 2], none⟩ : GPUArray ℤ).item i +
            (⟨[2], DType.float32, [10, 20], none⟩ : GPUArray ℤ).item i) :=
  ⟨by decide,
    (add_sub_elementwise ⟨[2], DType.float32, [1, 2], none⟩
        ⟨[2], DType.float32, [10, 20], none⟩ (fun _ => 0)).2.1
      ⟨[2], DType.float32, [11, 22], none⟩ (by decide)⟩

/-- C6: for a float32 array and any scalar, `_scale` succeeds and computes
`scale(x, f)[i] = f * x[i]` elementwise into a freshly allocated array,
and `__neg__` is literally `_scale(-1)`, hence `negate(x)[i] = -x[i]`. -/
theorem scale_neg_elementwise (x : GPUArray R) (c : R) (u : Nat → R)
    (hdt : x.dtype = DType.float32) :
    (∃ z, x.scale c u = some z ∧ z.shape = x.shape ∧
      ∀ i < x.size, z.item i = c * x.item i) ∧
    x.neg u = x.scale (-1) u ∧
    (∃ w, x.neg u = some w ∧ w.shape = x.shape ∧
      ∀ i < x.size, w.item i = - x.item i) := by
  have hpos := dispatch_pos x.size
  refine ⟨⟨_, scale_eq x c u hdt, rfl, ?_⟩, rfl, ⟨_, scale_eq x (-1) u hdt, rfl, ?_⟩⟩
  · intro i hi
    have hlen : i < ((List.range x.shape.prod).map u).length := by
      simpa [GPUArray.size] using hi
    simp only [GPUArray.item]
    rw [runKernel_getD _ _ _ _ hpos.1 hpos.2 _ i hi hlen]
  · intro i hi
    have hlen : i < ((List.range x.shape.prod).map u).length := by
      simpa [GPUArray.size] using hi
    simp only [GPUArray.item]
    rw [runKernel_getD _ _ _ _ hpos.1 hpos.2 _ i hi hlen]
    ring

theorem scale_neg_elementwise_witness :
    ((⟨[4], DType.float32, [1, 2, 3, 4], none⟩ : GPUArray ℤ).dtype = DType.float32) ∧
      (∃ z, GPUArray.scale (R := ℤ) ⟨[4], DType.float32, [1, 2, 3, 4], none⟩ 2
          (fun _ => 0) = some z ∧
        z.shape = (⟨[4], DType.float32, [1, 2, 3, 4], none⟩ : GPUArray ℤ).shape ∧
        ∀ i < (⟨[4], DType.float32, [1, 2, 3, 4], none⟩ : GPUArray ℤ).size,
          z.item i = 2 * (⟨[4], DType.float32, [1, 2, 3, 4], none⟩ : GPUArray ℤ).item i) :=
  ⟨by decide,
    (scale_neg_elementwise ⟨[4], DType.float32, [1, 2, 3, 4], none⟩ 2 (fun _ => 0)
      (by decide)).1⟩

/-- C7, counterexample: the host buffer `[9, 8]` of shape `[2]` has
matching element count (2) and dtype with a device array of shape
`[2, 1]`, so `set` succeeds — but `get` rebuilds the host array with the
DEVICE array's shape `[2, 1]`, so the round trip returns a buffer that is
not equal to the one passed in: element count equality is not enough for
the claimed identity. -/
theorem set_get_counterexample :
    ((⟨[2], DType.float32, [9, 8]⟩ : NDArray ℤ).size =
        (⟨[2, 1], DType.float32, [0, 0], none⟩ : GPUArray ℤ).size ∧
      (⟨[2], DType.float32, [9, 8]⟩ : NDArray ℤ).dtype =
        (⟨[2, 1], DType.float32, [0, 0], none⟩ : GPUArray ℤ).dtype) ∧
      (GPUArray.set (R := ℤ) ⟨[2, 1], DType.float32, [0, 0], none⟩
          ⟨[2], DType.float32, [9, 8]⟩).map GPUArray.get =
        some ⟨[2, 1], DType.float32, [9, 8]⟩ ∧
      (⟨[2, 1], DType.float32, [9, 8]⟩ : NDArray ℤ) ≠ ⟨[2], DType.float32, [9, 8]⟩ := by
  decide

/-- C7 (amended): for every host buffer whose SHAPE (not merely element
count) and element type equal the array's, `set` succeeds and a following
`get()` returns a buffer equal to the one passed in: the round trip is
the identity on shape-matching buffers. -/
theorem set_get_roundtrip (a : GPUArray R) (x : NDArray R)
    (hsh : x.shape = a.shape) (hdt : x.dtype = a.dtype) :
    ∃ a', a.set x = some a' ∧ a'.get = x := by
  refine ⟨{ a with gpudata := x.data }, ?_, ?_⟩
  · rw [GPUArray.set, if_neg (by simp [NDArray.size, GPUArray.size, hsh]),
      if_neg (by simp [hdt])]
  · rw [GPUArray.get]
    cases x
    simp_all

theorem set_get_roundtrip_witness :
    ((⟨[2], DType.float32, [4, 5]⟩ : NDArray ℤ).shape =
        (⟨[2], DType.float32, [0, 0], none⟩ : GPUArray ℤ).shape ∧
      (⟨[2], DType.float32, [4, 5]⟩ : NDArray ℤ).dtype =
        (⟨[2], DType.float32, [0, 0], none⟩ : GPUArray ℤ).dtype) ∧
      ∃ a', GPUArray.set (R := ℤ) ⟨[2], DType.float32, [0, 0], none⟩
          ⟨[2], DType.float32, [4, 5]⟩ = some a' ∧
        a'.get = ⟨[2], DType.float32, [4, 5]⟩ :=
  ⟨by decide,
    set_get_roundtrip ⟨[2], DType.float32, [0, 0], none⟩ ⟨[2], DType.float32, [4, 5]⟩
      (by decide) (by decide)⟩

/-- C8, counterexample: two float32 arrays of the same shape `[1]`, one
with no stream and one with stream `0` — so shapes match, dtypes are
float32, and it is NOT the case that both operands carry a stream — yet
`add` fails.  The claim's "exactly when" list misses this case: the code
asserts stream identity as soon as EITHER operand carries a stream. -/
theorem add_stream_counterexample :
    GPUArray.add (R := ℤ) ⟨[1], DType.float32, [1], none⟩
        ⟨[1], DType.float32, [2], some 0⟩ (fun _ => 0) = none ∧
      (⟨[1], DType.float32, [1], none⟩ : GPUArray ℤ).shape =
        (⟨[1], DType.float32, [2], some 0⟩ : GPUArray ℤ).shape ∧
      (⟨[1], DType.float32, [1], none⟩ : GPUArray ℤ).dtype = DType.float32 ∧
      (⟨[1], DType.float32, [2], some 0⟩ : GPUArray ℤ).dtype = DType.float32 ∧
      ¬ ((⟨[1], DType.float32, [1], none⟩ : GPUArray ℤ).stream ≠ none ∧
          (⟨[1], DType.float32, [2], some 0⟩ : GPUArray ℤ).stream ≠ none) := by
  decide

/-- C8 (amended): `add` (and `sub`) fail with a precondition error —
returning no result, with no kernel launched — exactly when the operand
shapes differ, an operand's element type is not float32, or the operands'
stream fields are not equal (in particular also when exactly one operand
carries a stream); equal shapes of different lengths such as `(4,)` and
`(5,)` are a failure, not a truncation or broadcast. -/
theorem add_sub_failure_iff (x y : GPUArray R) (u : Nat → R) :
    (x.add y u = none ↔
      ¬ (x.shape = y.shape ∧ x.dtype = DType.float32 ∧ y.dtype = DType.float32 ∧
          x.stream = y.stream)) ∧
    (x.sub y u = none ↔
      ¬ (x.shape = y.shape ∧ x.dtype = DType.float32 ∧ y.dtype = DType.float32 ∧
          x.stream = y.stream)) :=
  ⟨axpbyz_none_iff x y _ 1 1, axpbyz_none_iff x y _ 1 (-1)⟩

/-- C10: every array returned by `__add__`, `__sub__`, `_scale`,
`__neg__` or `fill` is the freshly constructed
`GPUArray(self.shape, self.dtype)` — built with the constructor's default
`stream = None` — regardless of the operands' streams. -/
theorem results_stream_none (x y : GPUArray R) (v c : R) (u : Nat → R)
    (z : GPUArray R) (p : GPUArray R × GPUArray R) :
    (x.add y u = some z → z.stream = none) ∧
    (x.sub y u = some z → z.stream = none) ∧
    (x.scale c u = some z → z.stream = none) ∧
    (x.neg u = some z → z.stream = none) ∧
    (x.fill v u = some p → p.2.stream = none) := by
  refine ⟨?_, ?_, ?_, ?_, ?_⟩ <;> intro h
  · rw [GPUArray.add, GPUArray.axpbyz] at h
    split_ifs at h
    injection h with h2
    rw [← h2]
    rfl
  · rw [GPUArray.sub, GPUArray.axpbyz] at h
    split_ifs at h
    injection h with h2
    rw [← h2]
    rfl
  · rw [GPUArray.scale] at h
    split_ifs at h
    injection h with h2
    rw [← h2]
    rfl
  · rw [GPUArray.neg, GPUArray.scale] at h
    split_ifs at h
    injection h with h2
    rw [← h2]
    rfl
  · rw [GPUArray.fill] at h
    split_ifs at h
    injection h with h2
    rw [← h2]
    rfl

theorem results_stream_none_witness :
    GPUArray.add (R := ℤ) ⟨[1], DType.float32, [1], some 2⟩
        ⟨[1], DType.float32, [2], some 2⟩ (fun _ => 0) =
      some ⟨[1], DType.float32, [3], none⟩ ∧
      (⟨[1], DType.float32, [3], none⟩ : GPUArray ℤ).stream = none :=
  ⟨by decide,
    (results_stream_none (R := ℤ) ⟨[1], DType.float32, [1], some 2⟩
        ⟨[1], DType.float32, [2], some 2⟩ 0 0 (fun _ => 0)
        ⟨[1], DType.float32, [3], none⟩
        (⟨[1], DType.float32, [3], none⟩, ⟨[1], DType.float32, [3], none⟩)).1
      (by decide)⟩

end PyCuda
